import Mathlib

/-!
Shallow embedding of the data-ingestion and transformation pipeline of the
population dashboard repository: the CSV line parser and document extractor
(src/app/shared/utils/csv-parser.util.ts), the dataset mergers
(core/services/population-data-transformer.service.ts and
shared/services/population.service.ts), the paginated boundary fetch
aggregation (core/services/population.service.ts), and the view projector
(dashboard-data.service.ts and population-data.util.ts).

JavaScript machine numbers are modelled by `JNum`: either NaN, a signed
infinity, or an exact rational.  Float rounding is not modelled; this only
matters for decimal literals large enough to overflow binary64, which no
claim depends on.
-/

/-- Model of a JavaScript number: NaN, a signed infinity, or a finite value
represented exactly as a rational. -/
inductive JNum where
  | nan : JNum
  | inf (neg : Bool) : JNum
  | fin (q : ℚ) : JNum
deriving DecidableEq, Repr

/-- Model of the JavaScript global isNaN on a number. -/
def JNum.isNaN : JNum → Bool
  | .nan => true
  | _ => false

/-- A JavaScript number is finite when it is neither NaN nor an infinity. -/
def JNum.isFinite : JNum → Bool
  | .fin _ => true
  | _ => false

/-- Numeric value of a decimal digit character. -/
def digitVal (c : Char) : Nat := c.toNat - 48

/-- Value of a list of decimal digit characters, most significant first. -/
def digitsToNat (ds : List Char) : Nat :=
  ds.foldl (fun n c => 10 * n + digitVal c) 0

/-- Model of JavaScript parseInt(s, 10): skip leading whitespace, read an
optional sign and then the longest prefix of decimal digits; NaN when no
digit is found.  (Overflow of huge digit strings to Infinity is outside the
exact-rational model.) -/
def jsParseInt (s : String) : JNum :=
  let t := s.data.dropWhile Char.isWhitespace
  let signRest : Int × List Char :=
    match t with
    | c :: r => if c = '-' then (-1, r) else if c = '+' then (1, r) else (1, t)
    | [] => (1, [])
  let ds := signRest.2.takeWhile Char.isDigit
  if ds.isEmpty then JNum.nan
  else JNum.fin ((signRest.1 * (digitsToNat ds : Int) : Int) : ℚ)

/-- Model of JavaScript parseFloat(s): skip leading whitespace, read an
optional sign, then either the literal Infinity or the longest prefix of the
form digits [. digits] [e|E [sign] digits]; NaN when neither an integer part
nor a fraction part has a digit.  An exponent part lacking digits is not
consumed, matching the longest-valid-prefix rule. -/
def jsParseFloat (s : String) : JNum :=
  let t := s.data.dropWhile Char.isWhitespace
  let negRest : Bool × List Char :=
    match t with
    | c :: r => if c = '-' then (true, r) else if c = '+' then (false, r) else (false, t)
    | [] => (false, [])
  let neg := negRest.1
  let rest := negRest.2
  if ("Infinity".data).isPrefixOf rest then JNum.inf neg
  else
    let ip := rest.takeWhile Char.isDigit
    let r1 := rest.dropWhile Char.isDigit
    let fpR2 : List Char × List Char :=
      match r1 with
      | c :: rr =>
          if c = '.' then (rr.takeWhile Char.isDigit, rr.dropWhile Char.isDigit)
          else ([], r1)
      | [] => ([], [])
    let fp := fpR2.1
    let r2 := fpR2.2
    if ip.isEmpty && fp.isEmpty then JNum.nan
    else
      let ex : Int :=
        match r2 with
        | c :: rr =>
            if c = 'e' ∨ c = 'E' then
              match rr with
              | c2 :: rrr =>
                  if c2 = '-' then
                    (if (rrr.takeWhile Char.isDigit).isEmpty then 0
                     else -(digitsToNat (rrr.takeWhile Char.isDigit) : Int))
                  else if c2 = '+' then
                    (if (rrr.takeWhile Char.isDigit).isEmpty then 0
                     else (digitsToNat (rrr.takeWhile Char.isDigit) : Int))
                  else
                    (if (rr.takeWhile Char.isDigit).isEmpty then 0
                     else (digitsToNat (rr.takeWhile Char.isDigit) : Int))
              | [] => 0
            else 0
        | [] => 0
      let n : Int := digitsToNat (ip ++ fp)
      let sn : Int := if neg then -n else n
      let e2 : Int := ex - fp.length
      JNum.fin (if 0 ≤ e2 then ((sn * 10 ^ e2.toNat : Int) : ℚ) else mkRat sn (10 ^ (-e2).toNat))

/-- The double-quote character. -/
def dquoteChar : Char := Char.ofNat 34

/-- Loop of parseCsvLine over the remaining characters.  The Boolean is the
insideQuotes flag and the last argument is the field accumulated so far.
A quote while inside quotes followed by another quote appends a literal
quote and skips the pair; otherwise a quote toggles the flag; a comma
outside quotes ends the current field; any other character is appended. -/
def csvLineAux : List Char → Bool → List Char → List (List Char)
  | [], _, cur => [cur]
  | [c], inQ, cur =>
      if c = dquoteChar then [cur]
      else if c = ',' && !inQ then [cur, []]
      else [cur ++ [c]]
  | c :: c2 :: rest, inQ, cur =>
      if c = dquoteChar then
        if inQ then
          if c2 = dquoteChar then csvLineAux rest true (cur ++ [dquoteChar])
          else csvLineAux (c2 :: rest) false cur
        else csvLineAux (c2 :: rest) true cur
      else if c = ',' && !inQ then
        cur :: csvLineAux (c2 :: rest) false []
      else
        csvLineAux (c2 :: rest) inQ (cur ++ [c])

/-- Model of parseCsvLine (csv-parser.util.ts, also duplicated inside
shared/services/population.service.ts): split one CSV line into fields,
honouring quoting and doubled-quote escapes. -/
def parseCsvLine (line : String) : List String :=
  (csvLineAux line.data false []).map List.asString

deriving instance DecidableEq for Except

/-- Model of String.prototype.toLowerCase, character by character. -/
def jsToLower (s : String) : String := (s.data.map Char.toLower).asString

/-- Model of String.prototype.toUpperCase, character by character. -/
def jsToUpper (s : String) : String := (s.data.map Char.toUpper).asString

/-- Model of the JavaScript String.prototype.trim: drop leading and trailing
whitespace characters.  (JS trims the full Unicode whitespace set; the model
uses the ASCII whitespace recognised by Char.isWhitespace, which covers every
character the claims exercise.) -/
def jsTrim (s : String) : String :=
  (((s.data.dropWhile Char.isWhitespace).reverse.dropWhile Char.isWhitespace).reverse).asString

/-- Model of the two sequential global replaces in parseCsvToJson: first
every CRLF pair becomes LF, then every remaining CR becomes LF. -/
def normalizeNewlines : List Char → List Char
  | [] => []
  | [c] => if c = '\r' then ['\n'] else [c]
  | c :: c2 :: rest =>
      if c = '\r' then
        if c2 = '\n' then '\n' :: normalizeNewlines rest
        else '\n' :: normalizeNewlines (c2 :: rest)
      else c :: normalizeNewlines (c2 :: rest)

/-- Split a character list at every occurrence of the separator; the empty
list yields one empty field, mirroring JavaScript String.prototype.split. -/
def splitOnChar (sep : Char) : List Char → List (List Char)
  | [] => [[]]
  | c :: rest =>
      if c = sep then [] :: splitOnChar sep rest
      else
        match splitOnChar sep rest with
        | [] => [[c]]
        | f :: fs => (c :: f) :: fs

/-- Prepend an accumulated field to the first field of a split, used to
relate the CSV line loop to plain comma splitting. -/
def prependToHead (cur : List Char) : List (List Char) → List (List Char)
  | [] => [cur]
  | f :: fs => (cur ++ f) :: fs

/-- The line preprocessing of parseCsvToJson: normalize line endings, split
on LF, and keep only lines that are not blank after trimming. -/
def normalizeLines (csvText : String) : List String :=
  ((splitOnChar '\n' (normalizeNewlines csvText.data)).map List.asString).filter
    (fun l => jsTrim l != "")

/-- Model of the PopulationData record produced by the extractor
(core/models/population-data.model.ts): the year and value fields hold the
JavaScript numbers produced by parseInt and parseFloat. -/
structure PopulationData where
  countryName : String
  countryCode : String
  year : JNum
  value : JNum
deriving DecidableEq, Repr

/-- Processing of one data row in parseCsvToJson: parse the fields, skip the
row when it is blank or when year or value parses to NaN, fail with a
TypeError when the name or code column index falls outside the row (reading
a property of undefined), and otherwise produce the record. -/
def parseRow (cni cci yi vi : Nat) (line : String) : Except String (Option PopulationData) :=
  let values := parseCsvLine line
  if values.length = 0 || values.all (fun v => jsTrim v == "") then .ok none
  else
    let year := jsParseInt ((values.get? yi).getD "undefined")
    let value := jsParseFloat ((values.get? vi).getD "undefined")
    if year.isNaN || value.isNaN then .ok none
    else
      match values.get? cni, values.get? cci with
      | some n, some c => .ok (some ⟨jsTrim n, jsTrim c, year, value⟩)
      | _, _ => .error "TypeError: Cannot read properties of undefined"

/-- The data-row loop of parseCsvToJson: rows are processed in order, skipped
rows contribute nothing, and a thrown TypeError aborts the whole parse. -/
def collectRows (cni cci yi vi : Nat) : List String → Except String (List PopulationData)
  | [] => .ok []
  | line :: rest =>
      match parseRow cni cci yi vi line with
      | .error e => .error e
      | .ok none => collectRows cni cci yi vi rest
      | .ok (some r) =>
          match collectRows cni cci yi vi rest with
          | .error e => .error e
          | .ok rs => .ok (r :: rs)

/-- Message of the error thrown by parseCsvToJson when a required column is
missing; it carries the actual header list joined with a comma separator. -/
def missingColumnsMessage (headers : List String) : String :=
  "CSV file missing required columns. Found headers: " ++ String.intercalate ", " headers

/-- Model of parseCsvToJson (csv-parser.util.ts, duplicated inside
shared/services/population.service.ts): normalize and split lines, locate the
four required columns case-insensitively, fail when any is missing, then
collect the data rows.  In the source the header cells are trimmed and then
stripped of a trailing CR or LF, which the trim has already removed. -/
def parseCsvToJson (csvText : String) : Except String (List PopulationData) :=
  let lines := normalizeLines csvText
  if lines.length = 0 then .ok []
  else
    let headers := (parseCsvLine (lines.headD "")).map (fun h => jsTrim h)
    let cni := headers.findIdx? (fun h => jsToLower h == "country name")
    let cci := headers.findIdx? (fun h => jsToLower h == "country code")
    let yi := headers.findIdx? (fun h => jsToLower h == "year")
    let vi := headers.findIdx? (fun h => jsToLower h == "value")
    if cni.isNone || cci.isNone || yi.isNone || vi.isNone then
      .error (missingColumnsMessage headers)
    else collectRows (cni.getD 0) (cci.getD 0) (yi.getD 0) (vi.getD 0) lines.tail

/-- Model of getPopulationData (both population services): reject an empty or
whitespace-only body, parse the rest, and wrap any thrown error message in
the service-level failure message.  The retry(2) operator sits before the
map in the pipe, so parse errors are not retried; only the final outcome of
a successful transport response is modelled. -/
def getPopulationData (body : String) : Except String (List PopulationData) :=
  if jsTrim body == "" then .error "Failed to fetch population data: Empty response from API"
  else
    match parseCsvToJson body with
    | .ok recs => .ok recs
    | .error e => .error ("Failed to fetch population data: " ++ e)

/-- Model of an untyped JavaScript value, as far as the merge code needs it:
undefined, null, Booleans, numbers (finite rationals suffice here), strings,
arrays and plain objects.  An object is its list of own properties in
insertion order; object literals never carry duplicate keys at runtime. -/
inductive JsVal where
  | vundefined : JsVal
  | vnull : JsVal
  | vbool (b : Bool) : JsVal
  | vnum (q : ℚ) : JsVal
  | vstr (s : String) : JsVal
  | varr (elems : List JsVal) : JsVal
  | vobj (fields : List (String × JsVal)) : JsVal

/-- A JavaScript object, as a list of own properties in insertion order. -/
def JsObj : Type := List (String × JsVal)

/-- JavaScript truthiness: undefined, null, false, 0 and the empty string are
falsy; arrays and objects are always truthy. -/
def truthy : JsVal → Bool
  | .vundefined => false
  | .vnull => false
  | .vbool b => b
  | .vnum q => q != 0
  | .vstr s => s != ""
  | .varr _ => true
  | .vobj _ => true

/-- The JavaScript logical AND: its value is the right operand when the left
is truthy, the left operand otherwise. -/
def jsAnd (a b : JsVal) : JsVal := if truthy a then b else a

/-- Property access on a non-nullish JavaScript value: object properties by
name, the length property of arrays and strings; any other access yields
undefined.  Property access on null or undefined throws in JavaScript and
is modelled by getPropChecked; this total function is used only where the
accessed value cannot be nullish: in the boundariesArray conjunction the
accessed operands have been checked truthy (the length of a falsy results
value is computed eagerly here but discarded by jsAnd, exactly as the
short-circuit never evaluates it), and the boundaries map only ever holds
objects. -/
def getProp (v : JsVal) (k : String) : JsVal :=
  match v with
  | .vobj fields => (fields.lookup k).getD .vundefined
  | .varr xs => if k == "length" then .vnum xs.length else .vundefined
  | .vstr s => if k == "length" then .vnum s.length else .vundefined
  | _ => .vundefined

/-- Property access as JavaScript performs it on an arbitrary value: reading
a property of null or undefined throws a TypeError. -/
def getPropChecked (v : JsVal) (k : String) : Except String JsVal :=
  match v with
  | .vnull => .error "TypeError: Cannot read properties of null"
  | .vundefined => .error "TypeError: Cannot read properties of undefined"
  | _ => .ok (getProp v k)

/-- Property lookup on an object given as a field list. -/
def objLookup (o : JsObj) (k : String) : JsVal :=
  (List.lookup k o).getD .vundefined

/-- Own fields of a value: the field list for objects, nothing otherwise.
Only objects ever enter the boundaries map, since only objects can satisfy
the iso3 string check. -/
def objFields : JsVal → JsObj
  | .vobj fields => fields
  | _ => []

/-- Model of the object literal that spreads a first and then b: keys of a
keep their position, with the value of b on a key collision; keys only in b
follow in their own order. -/
def spreadObj (a b : JsObj) : JsObj :=
  (a.map (fun p => (p.1, (List.lookup p.1 b).getD p.2))) ++
    b.filter (fun p => (List.lookup p.1 a).isNone)

/-- The boundariesArray initializer of both mergeDatasets implementations:
the conjunction worldBoundaries AND its results AND their length AND the
results again.  When results is absent this evaluates to undefined; when
results is an empty array it evaluates to the number 0; only when results is
a nonempty array does it evaluate to that array. -/
def boundariesArrayOf (worldBoundaries : JsVal) : JsVal :=
  let r := getProp worldBoundaries "results"
  jsAnd (jsAnd (jsAnd worldBoundaries r) (getProp r "length")) r

/-- The forEach loop building the boundaries lookup, over the remaining
boundaries and the map built so far: reading boundary.iso3 throws a
TypeError for a null or undefined element, aborting the whole merge;
otherwise a boundary whose iso3 is a truthy string with nonblank trim is
keyed by the trimmed uppercased iso3, first boundary per key wins. -/
def buildBoundariesMapAux : List JsVal → List (String × JsVal) →
    Except String (List (String × JsVal))
  | [], m => .ok m
  | b :: bs, m =>
      match getPropChecked b "iso3" with
      | .error e => .error e
      | .ok (.vstr s) =>
          if s != "" && jsTrim s != "" then
            let key := jsToUpper (jsTrim s)
            if (List.lookup key m).isSome then buildBoundariesMapAux bs m
            else buildBoundariesMapAux bs (m ++ [(key, b)])
          else buildBoundariesMapAux bs m
      | .ok _ => buildBoundariesMapAux bs m

/-- The boundaries lookup build of both mergeDatasets implementations. -/
def buildBoundariesMap (bs : List JsVal) : Except String (List (String × JsVal)) :=
  buildBoundariesMapAux bs []

namespace PopulationDataTransformerService

/-- The per-record step of the transformer-service merge: normalize the
record countryCode by optional chaining, trim and uppercase; on a truthy key
found in the map, spread the population record and then the whole boundary
record; otherwise pass the record through.  A non-string, non-nullish
countryCode would make the trim call throw. -/
def mergeOnePop (m : List (String × JsVal)) (popData : JsObj) : Except String JsObj :=
  match objLookup popData "countryCode" with
  | .vundefined => .ok popData
  | .vnull => .ok popData
  | .vstr s =>
      let countryCode := jsToUpper (jsTrim s)
      if countryCode != "" && (List.lookup countryCode m).isSome then
        .ok (spreadObj popData (objFields ((List.lookup countryCode m).getD .vundefined)))
      else .ok popData
  | _ => .error "TypeError: popData.countryCode.trim is not a function"

/-- Model of mergeDatasets
(core/services/population-data-transformer.service.ts): return the input on
an empty population array or a falsy boundaries argument, otherwise read the
boundariesArray conjunction and iterate forEach over it, which throws a
TypeError when that conjunction is not an array. -/
def mergeDatasets (populationData : List JsObj) (worldBoundaries : JsVal) :
    Except String (List JsObj) :=
  if populationData.length = 0 then .ok populationData
  else if !truthy worldBoundaries then .ok populationData
  else
    match boundariesArrayOf worldBoundaries with
    | .varr bs =>
        match buildBoundariesMap bs with
        | .error e => .error e
        | .ok m => populationData.mapM (mergeOnePop m)
    | _ => .error "TypeError: boundariesArray.forEach is not a function"

end PopulationDataTransformerService

/-- The nine enrichment properties the shared-service merge copies
explicitly from the matched boundary record. -/
def enrichmentKeys : List String :=
  ["geo_point_2d", "geo_shape", "status", "color_code", "continent", "region",
   "iso_3166_1_alpha_2_codes", "french_short", "iso3"]

namespace SharedPopulationService

/-- The per-record step of the shared-service merge: same lookup as the
transformer, but on a hit the new record lists the population fields and
then the nine enrichment properties read from the boundary (undefined when
the boundary lacks one). -/
def mergeOnePop (m : List (String × JsVal)) (popData : JsObj) : Except String JsObj :=
  match objLookup popData "countryCode" with
  | .vundefined => .ok popData
  | .vnull => .ok popData
  | .vstr s =>
      let countryCode := jsToUpper (jsTrim s)
      if countryCode != "" && (List.lookup countryCode m).isSome then
        let boundary := (List.lookup countryCode m).getD .vundefined
        .ok (spreadObj popData (enrichmentKeys.map (fun k => (k, getProp boundary k))))
      else .ok popData
  | _ => .error "TypeError: popData.countryCode.trim is not a function"

/-- Model of mergeDatasets (shared/services/population.service.ts): the same
structure as the transformer service, differing only in the per-record hit
result. -/
def mergeDatasets (populationData : List JsObj) (worldBoundaries : JsVal) :
    Except String (List JsObj) :=
  if populationData.length = 0 then .ok populationData
  else if !truthy worldBoundaries then .ok populationData
  else
    match boundariesArrayOf worldBoundaries with
    | .varr bs =>
        match buildBoundariesMap bs with
        | .error e => .error e
        | .ok m => populationData.mapM (mergeOnePop m)
    | _ => .error "TypeError: boundariesArray.forEach is not a function"

end SharedPopulationService

/-- A sample population record object, as built by the extractor. -/
def samplePop : JsObj :=
  [("countryName", JsVal.vstr "India"), ("countryCode", JsVal.vstr "IND"),
   ("year", JsVal.vnum 2020), ("value", JsVal.vnum 1380000000)]

/-- Shape of one page response of the boundaries API: a declared total count
and the page results.  The element type is left abstract. -/
structure BoundaryPage (α : Type) where
  total_count : Int
  results : List α
deriving DecidableEq, Repr

/-- Model of the rxjs forkJoin barrier over a list of already-determined
call outcomes, with the network completion order given as the list of call
indices in arrival order: the barrier fails with the error of the first
failing call to arrive, and otherwise yields every value in call-index
order, independent of the arrival order. -/
def forkJoinModel (calls : List (Except String β)) (order : List Nat) :
    Except String (List β) :=
  match order.findSome?
      (fun i =>
        match calls.get? i with
        | some (.error e) => some e
        | _ => none) with
  | some e => .error e
  | none => calls.mapM id

/-- The additional page offsets getWorldBoundariesData requests after the
first page: the ceiling of the remaining count over the page size of 100,
at offsets 100, 200, and so on. -/
def additionalOffsets (totalCount : Int) (initLen : Nat) : List Nat :=
  let remainingCount := (totalCount - initLen).toNat
  let additionalCallsCount := (remainingCount + 99) / 100
  (List.range additionalCallsCount).map (fun i => (i + 1) * 100)

/-- The offsets of every page request getWorldBoundariesData issues: always
offset 0; nothing else when the first page errors or already holds at least
total_count results; otherwise the additional offsets. -/
def boundaryRequestOffsets (fetch : Nat → Except String (BoundaryPage α)) : List Nat :=
  match fetch 0 with
  | .error _ => [0]
  | .ok firstResponse =>
      if (firstResponse.results.length : Int) ≥ firstResponse.total_count then [0]
      else 0 :: additionalOffsets firstResponse.total_count firstResponse.results.length

/-- Model of getWorldBoundariesData (core/services/population.service.ts)
before its trailing catchError: fetch offset 0; return it alone when it
already holds at least total_count results; otherwise request the remaining
pages concurrently through the forkJoin barrier and concatenate the
first-page results with the additional results in offset order.  The fetch
argument gives the outcome of the page request at each offset and the order
argument is the network completion order of the additional requests. -/
def boundariesCore (fetch : Nat → Except String (BoundaryPage α))
    (order : List Nat) : Except String (BoundaryPage α) :=
  match fetch 0 with
  | .error e => .error e
  | .ok firstResponse =>
      if (firstResponse.results.length : Int) ≥ firstResponse.total_count then
        .ok firstResponse
      else
        match forkJoinModel
            ((additionalOffsets firstResponse.total_count firstResponse.results.length).map
              fetch) order with
        | .error e => .error e
        | .ok additionalResponses =>
            .ok { firstResponse with
                  results :=
                    firstResponse.results ++
                      (additionalResponses.map (fun r => r.results)).flatten }

/-- The trailing catchError of getWorldBoundariesData, wrapping the pipeline
outcome. -/
def getWorldBoundariesData (fetch : Nat → Except String (BoundaryPage α))
    (order : List Nat) : Except String (BoundaryPage α) :=
  match boundariesCore fetch order with
  | .ok r => .ok r
  | .error e => .error ("Failed to fetch world boundaries data: " ++ e)

/-- Population record as the view layer sees it after the merge; the year
and value of stored records are used as plain numbers by the dashboard
computations, modelled here as an integer year and a rational value. -/
structure PopulationRow where
  countryName : String
  countryCode : String
  year : Int
  value : ℚ
deriving DecidableEq, Repr

/-- Chart series shape produced by the dashboard data service. -/
structure ChartData where
  labels : List String
  values : List ℚ
  title : String
deriving DecidableEq, Repr

/-- Insert a row into a list sorted descending by value, before the first
element whose value is not larger: with ties the inserted element, which
comes from earlier in the original list, stays first. -/
def insertByValueDesc (a : PopulationRow) : List PopulationRow → List PopulationRow
  | [] => [a]
  | b :: l => if b.value ≤ a.value then a :: b :: l else b :: insertByValueDesc a l

/-- Model of the stable JavaScript Array.prototype.sort with the comparator
on descending value: a stable sort is determined up to equality by its
comparator, so insertion sort represents the engine sort faithfully. -/
def sortByValueDesc : List PopulationRow → List PopulationRow
  | [] => []
  | a :: l => insertByValueDesc a (sortByValueDesc l)

/-- The chart value returned on empty input, an unparsable year, or a year
with no matching rows. -/
def defaultChart : ChartData := ⟨[], [], "Population (1960-2023)"⟩

/-- Model of DashboardDataService.processDataByYear: parse the year string,
filter the rows of that year, and when any exist, drop blank country names,
sort descending by value keeping ties in original order, truncate to 50 and
emit country names against values with the by-country title. -/
def processDataByYear (data : List PopulationRow) (year : String) : ChartData :=
  if data.length = 0 then defaultChart
  else
    match jsParseInt year with
    | JNum.fin yearNumber =>
        let yearData := data.filter (fun d => ((d.year : ℚ) == yearNumber))
        if yearData.length = 0 then defaultChart
        else
          let sortedData :=
            sortByValueDesc
              (yearData.filter (fun d => d.countryName != "" && jsTrim d.countryName != ""))
          let topCountries := sortedData.take 50
          ⟨topCountries.map (fun d => d.countryName), topCountries.map (fun d => d.value),
            "Population by Country (" ++ year ++ ")"⟩
    | _ => defaultChart

/-- The labels-and-values pair paginateChartData slices. -/
structure ChartPage where
  labels : List String
  values : List ℚ
deriving DecidableEq, Repr

/-- Model of Array.prototype.slice with start and end arguments: negative
indices count from the end, indices clamp to the array bounds, and the
result is the window from the resolved start to the resolved end. -/
def jsSlice (xs : List α) (s e : Int) : List α :=
  let len : Int := xs.length
  let s2 := if s < 0 then max (len + s) 0 else min s len
  let e2 := if e < 0 then max (len + e) 0 else min e len
  (xs.drop s2.toNat).take (e2 - s2).toNat

/-- Model of paginateChartData (shared/utils/population-data.util.ts):
empty input short-circuits, otherwise both arrays are sliced between
(page - 1) * rowsPerPage and that plus rowsPerPage. -/
def paginateChartData (fullData : ChartPage) (page : Int) (rowsPerPage : Int := 10) :
    ChartPage :=
  if fullData.labels.length = 0 then ⟨[], []⟩
  else
    let startIndex := (page - 1) * rowsPerPage
    let endIndex := startIndex + rowsPerPage
    ⟨jsSlice fullData.labels startIndex endIndex, jsSlice fullData.values startIndex endIndex⟩

def demoRows : List PopulationRow :=
  [⟨"A", "AAA", 2020, 10⟩, ⟨"B", "BBB", 2020, 50⟩, ⟨"C", "CCC", 2020, 30⟩,
   ⟨"D", "DDD", 2020, 20⟩, ⟨"E", "EEE", 2020, 40⟩]
def demo20 : ChartPage :=
  ⟨(List.range 20).map (fun i => toString i), (List.range 20).map (fun i => (i : ℚ))⟩

/-- A countryCode value on which the merge cannot throw: absent, null, or a
string, as the extractor always produces. -/
def mergeSafe : JsVal → Bool
  | .vundefined => true
  | .vnull => true
  | .vstr _ => true
  | _ => false

/-- The per-record result of the transformer-service merge on records with a
safe countryCode: the spread of the record with the matched boundary on a
lookup hit, the record itself otherwise. -/
def mergeHit (m : List (String × JsVal)) (popData : JsObj) : JsObj :=
  match objLookup popData "countryCode" with
  | .vstr s =>
      let countryCode := jsToUpper (jsTrim s)
      if countryCode != "" && (List.lookup countryCode m).isSome then
        spreadObj popData (objFields ((List.lookup countryCode m).getD .vundefined))
      else popData
  | _ => popData

/-- A boundary record that also carries a year field, colliding with the
population record year. -/
def boundaryWithYear : JsVal :=
  JsVal.vobj [("iso3", JsVal.vstr "ind "), ("year", JsVal.vnum 999)]

/-- The record the transformer merge produces from samplePop and
boundaryWithYear: the boundary year overwrites the population year. -/
def mergedOverwritten : JsObj :=
  [("countryName", JsVal.vstr "India"), ("countryCode", JsVal.vstr "IND"),
   ("year", JsVal.vnum 999), ("value", JsVal.vnum 1380000000),
   ("iso3", JsVal.vstr "ind ")]

/-- A page source whose first page succeeds with 250 declared records and
whose additional pages fail. -/
def cFailFetch : Nat → Except String (BoundaryPage Nat) := fun o =>
  if o = 0 then .ok ⟨250, List.range 100⟩ else .error "HTTP 500"

/-- A three-page source: 250 declared records served as 100, 100 and 50. -/
def cFetch : Nat → Except String (BoundaryPage Nat) := fun o =>
  if o = 0 then .ok ⟨250, List.range 100⟩
  else if o = 100 then .ok ⟨250, (List.range 100).map (fun i => 100 + i)⟩
  else .ok ⟨250, (List.range 50).map (fun i => 200 + i)⟩

/-- A one-page source: zero declared records. -/
def cFetchEmpty : Nat → Except String (BoundaryPage Nat) := fun _ =>
  .ok ⟨0, []⟩

/-! ## Supporting lemmas on the CSV line parser -/

theorem csvLineAux_length_pos (cs : List Char) (inQ : Bool) (cur : List Char) :
    1 ≤ (csvLineAux cs inQ cur).length := by
  induction cs, inQ, cur using csvLineAux.induct <;>
    simp_all [csvLineAux] <;> (try split) <;> simp_all

theorem splitOnChar_ne_nil (sep : Char) (cs : List Char) : splitOnChar sep cs ≠ [] := by
  cases cs with
  | nil => simp [splitOnChar]
  | cons c rest =>
      simp only [splitOnChar]
      split
      · simp
      · split <;> simp

theorem csvLineAux_no_quote : ∀ (cs cur : List Char), dquoteChar ∉ cs →
    csvLineAux cs false cur = prependToHead cur (splitOnChar ',' cs)
  | [], cur, _ => by simp [csvLineAux, splitOnChar, prependToHead]
  | [c], cur, h => by
      have hc : ¬c = dquoteChar := by intro hh; exact h (by simp [hh])
      by_cases hcom : c = ','
      · subst hcom; simp [csvLineAux, splitOnChar, prependToHead, hc]
      · simp [csvLineAux, splitOnChar, prependToHead, hc, hcom]
  | c :: c2 :: rest2, cur, h => by
      have hc : ¬c = dquoteChar := by intro hh; exact h (by simp [hh])
      have hrest : dquoteChar ∉ c2 :: rest2 := by
        intro hm; exact h (List.mem_cons_of_mem c hm)
      obtain ⟨f, fs, hS⟩ : ∃ f fs, splitOnChar ',' (c2 :: rest2) = f :: fs := by
        cases hS : splitOnChar ',' (c2 :: rest2) with
        | nil => exact absurd hS (splitOnChar_ne_nil ',' (c2 :: rest2))
        | cons f fs => exact ⟨f, fs, rfl⟩
      have hsplit : splitOnChar ',' (c :: c2 :: rest2) =
          if c = ',' then [] :: f :: fs else (c :: f) :: fs := by
        rw [show splitOnChar ',' (c :: c2 :: rest2) =
              (if c = ',' then [] :: splitOnChar ',' (c2 :: rest2)
               else
                 match splitOnChar ',' (c2 :: rest2) with
                 | [] => [[c]]
                 | f :: fs => (c :: f) :: fs) from rfl]
        rw [hS]
      by_cases hcom : c = ','
      · subst hcom
        have hL : csvLineAux (',' :: c2 :: rest2) false cur =
            cur :: csvLineAux (c2 :: rest2) false [] := by
          simp [csvLineAux, hc]
        rw [hL, csvLineAux_no_quote (c2 :: rest2) [] hrest, hS, hsplit]
        simp [prependToHead]
      · have hL : csvLineAux (c :: c2 :: rest2) false cur =
            csvLineAux (c2 :: rest2) false (cur ++ [c]) := by
          simp [csvLineAux, hc, hcom]
        rw [hL, csvLineAux_no_quote (c2 :: rest2) (cur ++ [c]) hrest, hS, hsplit]
        simp [prependToHead, hcom]

/-- C5: parseCsvLine honours RFC-4180-style quoting: the Korea line parses
to exactly four fields with the embedded comma kept inside the first field,
and the doubled quote in the second line unescapes to one literal quote in
field one. -/
theorem parseCsvLine_rfc4180_quoting :
    parseCsvLine "\"Korea, Rep.\",KOR,2020,51780000" =
      ["Korea, Rep.", "KOR", "2020", "51780000"] ∧
    (parseCsvLine "\"She said \"\"hi\"\"\",XX,2000,1").headD "" = "She said \"hi\"" ∧
    parseCsvLine "\"She said \"\"hi\"\"\",XX,2000,1" =
      ["She said \"hi\"", "XX", "2000", "1"] :=
  ⟨by decide, by decide, by decide⟩

/-- C10: every input line yields at least one field, the empty line yields
exactly one empty field, and a line with no double quote parses to exactly
the comma-split of the line. -/
theorem parseCsvLine_unquoted_split :
    (∀ line : String, 1 ≤ (parseCsvLine line).length) ∧
    parseCsvLine "" = [""] ∧
    (∀ line : String, dquoteChar ∉ line.data →
      parseCsvLine line = (splitOnChar ',' line.data).map List.asString) := by
  refine ⟨?_, by decide, ?_⟩
  · intro line
    have h := csvLineAux_length_pos line.data false []
    simpa [parseCsvLine] using h
  · intro line h
    have h2 := csvLineAux_no_quote line.data [] h
    have h3 : prependToHead [] (splitOnChar ',' line.data) = splitOnChar ',' line.data := by
      cases hS : splitOnChar ',' line.data with
      | nil => exact absurd hS (splitOnChar_ne_nil ',' line.data)
      | cons f fs => simp [prependToHead]
    rw [parseCsvLine, h2, h3]

/-- Witness for C10 on the concrete line a,b. -/
theorem parseCsvLine_unquoted_split_witness :
    1 ≤ (parseCsvLine "a,b").length ∧
    parseCsvLine "a,b" = (splitOnChar ',' ("a,b").data).map List.asString :=
  ⟨parseCsvLine_unquoted_split.1 "a,b",
   parseCsvLine_unquoted_split.2.2 "a,b" (by decide)⟩

/-! ## Supporting lemmas on the extractor -/

theorem parseRow_ok_some (cni cci yi vi : Nat) (line : String) (r : PopulationData)
    (h : parseRow cni cci yi vi line = .ok (some r)) :
    r.year.isNaN = false ∧ r.value.isNaN = false := by
  unfold parseRow at h
  dsimp only at h
  split at h
  · simp at h
  · split at h
    · simp at h
    · rename_i hguard
      split at h
      · rename_i n c hn hc
        simp only [Except.ok.injEq, Option.some.injEq] at h
        subst h
        simp only [Bool.or_eq_true, not_or, Bool.not_eq_true] at hguard
        exact ⟨hguard.1, hguard.2⟩
      · simp at h

theorem collectRows_mem (cni cci yi vi : Nat) :
    ∀ (lines : List String) (recs : List PopulationData) (r : PopulationData),
      collectRows cni cci yi vi lines = .ok recs → r ∈ recs →
      r.year.isNaN = false ∧ r.value.isNaN = false := by
  intro lines
  induction lines with
  | nil =>
      intro recs r h hr
      simp only [collectRows, Except.ok.injEq] at h
      subst h
      simp at hr
  | cons line rest ih =>
      intro recs r h hr
      simp only [collectRows] at h
      cases hp : parseRow cni cci yi vi line with
      | error e => rw [hp] at h; simp at h
      | ok o =>
          rw [hp] at h
          cases o with
          | none => exact ih recs r h hr
          | some r0 =>
              cases hrest : collectRows cni cci yi vi rest with
              | error e => rw [hrest] at h; simp at h
              | ok rs =>
                  rw [hrest] at h
                  simp only [Except.ok.injEq] at h
                  subst h
                  rcases List.mem_cons.mp hr with h1 | h2
                  · subst h1; exact parseRow_ok_some cni cci yi vi line r hp
                  · exact ih rs r hrest h2

/-- C2 counterexample: a row whose value cell is the text Infinity passes
the isNaN check of the extractor, so the record is stored with a non-finite
value instead of being skipped. -/
theorem parseCsvToJson_stores_infinity :
    parseCsvToJson "Country Name,Country Code,Year,Value\nA,AAA,2020,Infinity" =
      .ok [⟨"A", "AAA", JNum.fin 2020, JNum.inf false⟩] ∧
    (JNum.inf false).isFinite = false :=
  ⟨by decide, by decide⟩

/-- C2 amended: every record stored by the extractor has a year and a value
that are not NaN; rows whose year or value parses to NaN are skipped.  (A
value text parsing to an infinity, such as Infinity, is still stored.) -/
theorem parseCsvToJson_year_value_not_nan (doc : String) (recs : List PopulationData)
    (r : PopulationData) (hok : parseCsvToJson doc = .ok recs) (hr : r ∈ recs) :
    r.year.isNaN = false ∧ r.value.isNaN = false := by
  unfold parseCsvToJson at hok
  dsimp only at hok
  split at hok
  · simp only [Except.ok.injEq] at hok
    subst hok
    simp at hr
  · split at hok
    · simp at hok
    · exact collectRows_mem _ _ _ _ _ recs r hok hr

/-- Witness for C2 amended on a concrete document. -/
theorem parseCsvToJson_year_value_not_nan_witness :
    (⟨"India", "IND", JNum.fin 2020, JNum.fin 1380000000⟩ : PopulationData).year.isNaN = false ∧
    (⟨"India", "IND", JNum.fin 2020, JNum.fin 1380000000⟩ : PopulationData).value.isNaN = false :=
  parseCsvToJson_year_value_not_nan
    "Country Name,Country Code,Year,Value\nIndia,IND,2020,1380000000"
    [⟨"India", "IND", JNum.fin 2020, JNum.fin 1380000000⟩]
    ⟨"India", "IND", JNum.fin 2020, JNum.fin 1380000000⟩
    (by decide) (by decide)

/-- C9: when the document has a header row from which any of the four
required columns is absent under case-insensitive matching, extraction
throws the missing-columns error carrying the actual header list, and
getPopulationData propagates it to the caller wrapped in the service
failure message rather than recovering. -/
theorem parseCsvToJson_missing_columns (doc : String)
    (hne : normalizeLines doc ≠ [])
    (hmiss :
      (∀ h ∈ (parseCsvLine ((normalizeLines doc).headD "")).map jsTrim,
          jsToLower h ≠ "country name") ∨
      (∀ h ∈ (parseCsvLine ((normalizeLines doc).headD "")).map jsTrim,
          jsToLower h ≠ "country code") ∨
      (∀ h ∈ (parseCsvLine ((normalizeLines doc).headD "")).map jsTrim,
          jsToLower h ≠ "year") ∨
      (∀ h ∈ (parseCsvLine ((normalizeLines doc).headD "")).map jsTrim,
          jsToLower h ≠ "value")) :
    parseCsvToJson doc =
      .error (missingColumnsMessage
        ((parseCsvLine ((normalizeLines doc).headD "")).map jsTrim)) ∧
    (jsTrim doc ≠ "" →
      getPopulationData doc =
        .error ("Failed to fetch population data: " ++
          missingColumnsMessage
            ((parseCsvLine ((normalizeLines doc).headD "")).map jsTrim))) := by
  have hfirst : parseCsvToJson doc =
      .error (missingColumnsMessage
        ((parseCsvLine ((normalizeLines doc).headD "")).map jsTrim)) := by
    have hnone :
        ((parseCsvLine ((normalizeLines doc).headD "")).map jsTrim).findIdx?
            (fun h => jsToLower h == "country name") = none ∨
        ((parseCsvLine ((normalizeLines doc).headD "")).map jsTrim).findIdx?
            (fun h => jsToLower h == "country code") = none ∨
        ((parseCsvLine ((normalizeLines doc).headD "")).map jsTrim).findIdx?
            (fun h => jsToLower h == "year") = none ∨
        ((parseCsvLine ((normalizeLines doc).headD "")).map jsTrim).findIdx?
            (fun h => jsToLower h == "value") = none := by
      rcases hmiss with hm | hm | hm | hm
      · exact Or.inl (List.findIdx?_eq_none_iff.mpr (fun x hx => by
          simpa using hm x hx))
      · exact Or.inr (Or.inl (List.findIdx?_eq_none_iff.mpr (fun x hx => by
          simpa using hm x hx)))
      · exact Or.inr (Or.inr (Or.inl (List.findIdx?_eq_none_iff.mpr (fun x hx => by
          simpa using hm x hx))))
      · exact Or.inr (Or.inr (Or.inr (List.findIdx?_eq_none_iff.mpr (fun x hx => by
          simpa using hm x hx))))
    unfold parseCsvToJson
    dsimp only
    rw [if_neg (by simpa [List.length_eq_zero] using hne)]
    split
    · rfl
    · rename_i hcond
      exfalso
      rcases hnone with h | h | h | h <;> rw [h] at hcond <;> simp at hcond
  refine ⟨hfirst, fun hdoc => ?_⟩
  unfold getPopulationData
  rw [if_neg (by simpa using hdoc), hfirst]

/-- Witness for C9 on a document whose header lacks the country code
column. -/
theorem parseCsvToJson_missing_columns_witness :
    parseCsvToJson "Country Name,Year,Value\nA,2020,5" =
      .error (missingColumnsMessage ["Country Name", "Year", "Value"]) ∧
    getPopulationData "Country Name,Year,Value\nA,2020,5" =
      .error ("Failed to fetch population data: " ++
        missingColumnsMessage ["Country Name", "Year", "Value"]) := by
  have h := parseCsvToJson_missing_columns "Country Name,Year,Value\nA,2020,5"
    (by decide) (Or.inr (Or.inl (by decide)))
  exact ⟨by rw [h.1]; rfl, by rw [h.2 (by decide)]; rfl⟩

/-- C1 (bug exhibit): with a nonempty population array, both mergeDatasets
implementations throw a TypeError when the boundaries argument is an empty
array or a response whose results array is empty, because the
boundariesArray conjunction then yields undefined, respectively 0, and
forEach is called on it; only an absent (null) boundaries argument returns
the population unchanged. -/
theorem mergeDatasets_empty_boundaries_throws :
    PopulationDataTransformerService.mergeDatasets [samplePop] (JsVal.varr []) =
      .error "TypeError: boundariesArray.forEach is not a function" ∧
    PopulationDataTransformerService.mergeDatasets [samplePop]
        (JsVal.vobj [("results", JsVal.varr [])]) =
      .error "TypeError: boundariesArray.forEach is not a function" ∧
    SharedPopulationService.mergeDatasets [samplePop] (JsVal.varr []) =
      .error "TypeError: boundariesArray.forEach is not a function" ∧
    SharedPopulationService.mergeDatasets [samplePop]
        (JsVal.vobj [("results", JsVal.varr [])]) =
      .error "TypeError: boundariesArray.forEach is not a function" ∧
    PopulationDataTransformerService.mergeDatasets [samplePop] JsVal.vnull =
      .ok [samplePop] ∧
    SharedPopulationService.mergeDatasets [samplePop] JsVal.vnull = .ok [samplePop] :=
  ⟨rfl, rfl, rfl, rfl, rfl, rfl⟩

/-! ## Supporting lemmas on object spread and the merge -/

theorem lookup_map_snd (k : String) (b : JsObj) :
    ∀ a : JsObj,
      List.lookup k (a.map (fun p => (p.1, (List.lookup p.1 b).getD p.2))) =
        (List.lookup k a).map (fun v => (List.lookup k b).getD v)
  | [] => by simp
  | (k0, v0) :: a => by
      by_cases hk : k = k0
      · subst hk; simp [List.lookup]
      · simp only [List.map_cons, List.lookup,
          beq_eq_false_iff_ne.mpr hk]
        simpa using lookup_map_snd k b a

theorem lookup_filter_keyconst (k : String) (q : String × JsVal → Bool) :
    ∀ b : JsObj,
      (∀ v, q (k, v) = true) → List.lookup k (b.filter q) = List.lookup k b
  | [], _ => by simp
  | (k0, v0) :: b, h => by
      by_cases hk : k = k0
      · subst hk
        rw [show List.filter q ((k, v0) :: b) = (k, v0) :: List.filter q b by
          simp [List.filter, h v0]]
        simp [List.lookup]
      · by_cases hq : q (k0, v0) = true
        · rw [show List.filter q ((k0, v0) :: b) = (k0, v0) :: List.filter q b by
            simp [List.filter, hq]]
          simp only [List.lookup, beq_eq_false_iff_ne.mpr hk]
          exact lookup_filter_keyconst k q b h
        · have hq2 : q (k0, v0) = false := by simpa using hq
          rw [show List.filter q ((k0, v0) :: b) = List.filter q b by
            simp [List.filter, hq2]]
          simp only [List.lookup, beq_eq_false_iff_ne.mpr hk]
          exact lookup_filter_keyconst k q b h

/-- Field lookup in a spread object: the second object wins on every key it
carries, the first object answers otherwise. -/
theorem objLookup_spreadObj (a b : JsObj) (k : String) :
    objLookup (spreadObj a b) k =
      match List.lookup k b with
      | some v => v
      | none => objLookup a k := by
  unfold objLookup spreadObj
  rw [List.lookup_append, lookup_map_snd k b a]
  cases hb : List.lookup k b with
  | some v =>
      cases ha : List.lookup k a with
      | some w => simp
      | none =>
          have := lookup_filter_keyconst k (fun p => (List.lookup p.1 a).isNone) b
            (fun v => by simp [ha])
          simp [this, hb]
  | none =>
      cases ha : List.lookup k a with
      | some w => simp
      | none =>
          have := lookup_filter_keyconst k (fun p => (List.lookup p.1 a).isNone) b
            (fun v => by simp [ha])
          simp [this, hb]

theorem mergeOnePop_safe (m : List (String × JsVal)) (o : JsObj)
    (h : mergeSafe (objLookup o "countryCode") = true) :
    PopulationDataTransformerService.mergeOnePop m o = .ok (mergeHit m o) := by
  unfold PopulationDataTransformerService.mergeOnePop mergeHit
  cases hv : objLookup o "countryCode" <;> rw [hv] at h <;>
    first
      | rfl
      | (dsimp only; split <;> rfl)
      | simp [mergeSafe] at h

theorem mapM_mergeOnePop (m : List (String × JsVal)) :
    ∀ pop : List JsObj, (∀ o ∈ pop, mergeSafe (objLookup o "countryCode") = true) →
      pop.mapM (PopulationDataTransformerService.mergeOnePop m) =
        .ok (pop.map (mergeHit m))
  | [], _ => by rfl
  | o :: pop, h => by
      rw [List.mapM_cons, mergeOnePop_safe m o (h o (List.mem_cons_self o pop)),
        mapM_mergeOnePop m pop (fun x hx => h x (List.mem_cons_of_mem o hx))]
      rfl

/-- C3 counterexample: on a hit, the transformer merge spreads the whole
boundary record after the population record, so a boundary field named year
overwrites the population year, which the claim says is never overwritten. -/
theorem mergeDatasets_overwrites_core_fields :
    PopulationDataTransformerService.mergeDatasets [samplePop]
        (JsVal.vobj [("results", JsVal.varr [boundaryWithYear])]) =
      .ok [mergedOverwritten] ∧
    objLookup samplePop "year" = JsVal.vnum 2020 ∧
    objLookup mergedOverwritten "year" = JsVal.vnum 999 ∧
    JsVal.vnum 999 ≠ JsVal.vnum 2020 := by
  refine ⟨rfl, rfl, rfl, ?_⟩
  intro h
  injection h with h2
  norm_num at h2

/-- A null element of the results array makes the merge throw while reading
boundary.iso3, as the source does; the map-build hypothesis of the amended
theorem below is therefore not satisfiable on such inputs. -/
theorem mergeDatasets_null_boundary_throws :
    PopulationDataTransformerService.mergeDatasets [samplePop]
        (JsVal.vobj [("results", JsVal.varr [JsVal.vnull])]) =
      .error "TypeError: Cannot read properties of null" ∧
    buildBoundariesMap [JsVal.vnull] =
      .error "TypeError: Cannot read properties of null" :=
  ⟨rfl, rfl⟩

/-- C3 amended: when the boundaries map build succeeds (a null or undefined
element of results makes the whole merge throw instead), on records whose
countryCode is a string (or absent) the transformer merge maps each record
to the spread of the record with the matched boundary on a hit and passes
it through unchanged on a miss; in the spread the boundary takes precedence
on every key collision, including the countryCode, countryName, year and
value fields. -/
theorem mergeDatasets_hit_spreads_boundary (pop : List JsObj) (bs : List JsVal)
    (m : List (String × JsVal))
    (hbs : bs ≠ [])
    (hm : buildBoundariesMap bs = .ok m)
    (hcc : ∀ o ∈ pop, mergeSafe (objLookup o "countryCode") = true) :
    PopulationDataTransformerService.mergeDatasets pop
        (JsVal.vobj [("results", JsVal.varr bs)]) =
      .ok (pop.map (mergeHit m)) ∧
    (∀ (a b : JsObj) (k : String),
      objLookup (spreadObj a b) k =
        match List.lookup k b with
        | some v => v
        | none => objLookup a k) := by
  refine ⟨?_, objLookup_spreadObj⟩
  have harr : boundariesArrayOf (JsVal.vobj [("results", JsVal.varr bs)]) =
      JsVal.varr bs := by
    have hlen0 : bs.length ≠ 0 := fun h => hbs (List.length_eq_zero.mp h)
    have hq : ((bs.length : ℚ)) ≠ 0 := Nat.cast_ne_zero.mpr hlen0
    simp [boundariesArrayOf, jsAnd, getProp, truthy, hq, List.lookup]
  unfold PopulationDataTransformerService.mergeDatasets
  by_cases hpop : pop.length = 0
  · rw [if_pos hpop]
    have hnil : pop = [] := List.length_eq_zero.mp hpop
    subst hnil
    simp
  · have hfalse : ¬((!truthy (JsVal.vobj [("results", JsVal.varr bs)])) = true) := by
      intro hcon
      simp [truthy] at hcon
    rw [if_neg hpop, if_neg hfalse, harr]
    dsimp only
    rw [hm]
    exact mapM_mergeOnePop m pop hcc

/-- Witness for C3 amended on the sample record and boundary. -/
theorem mergeDatasets_hit_spreads_boundary_witness :
    PopulationDataTransformerService.mergeDatasets [samplePop]
        (JsVal.vobj [("results", JsVal.varr [boundaryWithYear])]) =
      .ok ([samplePop].map (mergeHit [("IND", boundaryWithYear)])) :=
  (mergeDatasets_hit_spreads_boundary [samplePop] [boundaryWithYear]
    [("IND", boundaryWithYear)] (by simp) rfl (by decide)).1

/-! ## Supporting lemmas on the paginated fetch -/

theorem mapM_id_error {β : Type} :
    ∀ (calls : List (Except String β)) (e : String), Except.error e ∈ calls →
      ∃ e', (calls.mapM id : Except String (List β)) = .error e' ∧ Except.error e' ∈ calls
  | [], e, h => by simp at h
  | c :: calls, e, h => by
      rw [List.mapM_cons]
      cases c with
      | error e0 => exact ⟨e0, rfl, List.mem_cons_self _ _⟩
      | ok v =>
          have h2 : Except.error e ∈ calls := by
            rcases List.mem_cons.mp h with h1 | h1
            · exact absurd h1 (by simp)
            · exact h1
          obtain ⟨e', he', hmem⟩ := mapM_id_error calls e h2
          rw [he']
          exact ⟨e', rfl, List.mem_cons_of_mem _ hmem⟩

theorem forkJoinModel_eq {β : Type} (calls : List (Except String β)) (order : List Nat) :
    forkJoinModel calls order =
      match order.findSome?
          (fun i =>
            match calls.get? i with
            | some (.error e) => some e
            | _ => none) with
      | some e => .error e
      | none => calls.mapM id := rfl

theorem forkJoinModel_error {β : Type} (calls : List (Except String β)) (order : List Nat)
    (h : ∃ e, Except.error e ∈ calls) :
    ∃ e, forkJoinModel calls order = .error e ∧ Except.error e ∈ calls := by
  cases hfs : order.findSome?
      (fun i =>
        match calls.get? i with
        | some (.error e) => some e
        | _ => none) with
  | some e =>
      refine ⟨e, by rw [forkJoinModel_eq, hfs], ?_⟩
      obtain ⟨i, _, hmatch⟩ := List.exists_of_findSome?_eq_some hfs
      cases hg : calls.get? i with
      | none => rw [hg] at hmatch; simp at hmatch
      | some c =>
          rw [hg] at hmatch
          cases c with
          | ok v => simp at hmatch
          | error e2 =>
              simp only [Option.some.injEq] at hmatch
              subst hmatch
              exact List.get?_mem hg
  | none =>
      obtain ⟨e, hc⟩ := h
      obtain ⟨e', he', hmem⟩ := mapM_id_error calls e hc
      exact ⟨e', by rw [forkJoinModel_eq, hfs]; exact he', hmem⟩

/-- C8: whenever any requested page fails, the whole aggregation fails with
the service error wrapping the message of a failing page request, and no
result collection is returned. -/
theorem getWorldBoundariesData_failure {α : Type}
    (fetch : Nat → Except String (BoundaryPage α)) (order : List Nat)
    (hfail : ∃ o ∈ boundaryRequestOffsets fetch, ∃ e, fetch o = .error e) :
    ∃ e o, o ∈ boundaryRequestOffsets fetch ∧ fetch o = .error e ∧
      getWorldBoundariesData fetch order =
        .error ("Failed to fetch world boundaries data: " ++ e) := by
  cases h0 : fetch 0 with
  | error e =>
      have hcore : boundariesCore fetch order = .error e := by
        unfold boundariesCore; rw [h0]
      have hoffs : boundaryRequestOffsets fetch = [0] := by
        unfold boundaryRequestOffsets; rw [h0]
      refine ⟨e, 0, ?_, h0, ?_⟩
      · rw [hoffs]; exact List.mem_singleton.mpr rfl
      · unfold getWorldBoundariesData; rw [hcore]
  | ok first =>
      by_cases hge : (first.results.length : Int) ≥ first.total_count
      · exfalso
        obtain ⟨o, ho, e, he⟩ := hfail
        have hoffs : boundaryRequestOffsets fetch = [0] := by
          unfold boundaryRequestOffsets; rw [h0]; exact if_pos hge
        rw [hoffs] at ho
        have hzero : o = 0 := List.mem_singleton.mp ho
        subst hzero
        rw [h0] at he
        exact absurd he (by simp)
      · obtain ⟨o, ho, e, he⟩ := hfail
        have hoffs : boundaryRequestOffsets fetch =
            0 :: additionalOffsets first.total_count first.results.length := by
          unfold boundaryRequestOffsets; rw [h0]; exact if_neg hge
        rw [hoffs] at ho
        have ho2 : o ∈ additionalOffsets first.total_count first.results.length := by
          rcases List.mem_cons.mp ho with h1 | h1
          · subst h1; rw [h0] at he; exact absurd he (by simp)
          · exact h1
        have hcall : Except.error e ∈
            (additionalOffsets first.total_count first.results.length).map fetch :=
          List.mem_map.mpr ⟨o, ho2, he⟩
        obtain ⟨e', hfj, hmem⟩ :=
          forkJoinModel_error
            ((additionalOffsets first.total_count first.results.length).map fetch)
            order ⟨e, hcall⟩
        obtain ⟨o', ho', he'⟩ := List.mem_map.mp hmem
        have hcore : boundariesCore fetch order = .error e' := by
          unfold boundariesCore
          rw [h0]
          dsimp only
          rw [if_neg hge, hfj]
        refine ⟨e', o', ?_, he', ?_⟩
        · rw [hoffs]; exact List.mem_cons_of_mem 0 ho'
        · unfold getWorldBoundariesData; rw [hcore]

/-- Witness for C8 on the failing page source. -/
theorem getWorldBoundariesData_failure_witness :
    getWorldBoundariesData cFailFetch [0, 1] =
      .error ("Failed to fetch world boundaries data: " ++ "HTTP 500") := by
  obtain ⟨e, o, ho, he, hres⟩ :=
    getWorldBoundariesData_failure cFailFetch [0, 1]
      ⟨100, by decide, "HTTP 500", by decide⟩
  have he2 : e = "HTTP 500" := by
    by_cases hz : o = 0
    · subst hz; simp [cFailFetch] at he
    · simp [cFailFetch, hz] at he; exact he.symm
  subst he2
  exact hres

/-- C4: with page size 100 and a first page declaring 250 records and
returning 100, the aggregator requests exactly the offsets 0, 100 and 200
(three requests, one initial plus the ceiling of 150 over 100) and returns
the three result pages concatenated in increasing offset order, for either
completion order of the two concurrent additional requests; and whenever
the first page already holds at least total_count results, only the initial
request is issued and its page is returned as is. -/
theorem getWorldBoundariesData_pagination {α : Type}
    (fetch : Nat → Except String (BoundaryPage α)) (order : List Nat)
    (p0 p1 p2 : BoundaryPage α)
    (h0 : fetch 0 = .ok p0) (ht : p0.total_count = 250) (hl0 : p0.results.length = 100)
    (h1 : fetch 100 = .ok p1) (hl1 : p1.results.length = 100)
    (h2 : fetch 200 = .ok p2) (hl2 : p2.results.length = 50)
    (horder : order = [0, 1] ∨ order = [1, 0])
    (fetch2 : Nat → Except String (BoundaryPage α)) (order2 : List Nat)
    (q : BoundaryPage α)
    (hq : fetch2 0 = .ok q) (hqlen : (q.results.length : Int) ≥ q.total_count) :
    boundaryRequestOffsets fetch = [0, 100, 200] ∧
    getWorldBoundariesData fetch order =
      .ok ⟨250, p0.results ++ (p1.results ++ (p2.results ++ []))⟩ ∧
    (p0.results ++ (p1.results ++ (p2.results ++ []))).length = 250 ∧
    boundaryRequestOffsets fetch2 = [0] ∧
    getWorldBoundariesData fetch2 order2 = .ok q := by
  have hge : ¬((p0.results.length : Int) ≥ p0.total_count) := by
    rw [ht, hl0]; decide
  have hoff : additionalOffsets p0.total_count p0.results.length = [100, 200] := by
    rw [ht, hl0]; rfl
  have hfj : forkJoinModel ([100, 200].map fetch) order = .ok [p1, p2] := by
    have hcalls : [100, 200].map fetch = [Except.ok p1, Except.ok p2] := by
      simp [h1, h2]
    rw [forkJoinModel_eq, hcalls]
    rcases horder with h | h <;> subst h <;> rfl
  have hcore : boundariesCore fetch order =
      .ok ⟨250, p0.results ++ (p1.results ++ (p2.results ++ []))⟩ := by
    unfold boundariesCore
    rw [h0]
    dsimp only
    rw [if_neg hge, hoff, hfj]
    dsimp only
    rw [ht]
    rfl
  have hcore2 : boundariesCore fetch2 order2 = .ok q := by
    unfold boundariesCore
    rw [hq]
    dsimp only
    rw [if_pos hqlen]
  refine ⟨?_, ?_, ?_, ?_, ?_⟩
  · unfold boundaryRequestOffsets
    rw [h0]
    dsimp only
    rw [if_neg hge, hoff]
  · unfold getWorldBoundariesData
    rw [hcore]
  · simp [hl0, hl1, hl2]
  · unfold boundaryRequestOffsets
    rw [hq]
    dsimp only
    rw [if_pos hqlen]
  · unfold getWorldBoundariesData
    rw [hcore2]

/-- Witness for C4 on the concrete three-page source, with the additional
requests completing out of order, and on the concrete empty source. -/
theorem getWorldBoundariesData_pagination_witness :
    boundaryRequestOffsets cFetch = [0, 100, 200] ∧
    getWorldBoundariesData cFetch [1, 0] =
      .ok ⟨250, List.range 100 ++
        ((List.range 100).map (fun i => 100 + i) ++
          ((List.range 50).map (fun i => 200 + i) ++ []))⟩ ∧
    (List.range 100 ++
      ((List.range 100).map (fun i => 100 + i) ++
        ((List.range 50).map (fun i => 200 + i) ++ []))).length = 250 ∧
    boundaryRequestOffsets cFetchEmpty = [0] ∧
    getWorldBoundariesData cFetchEmpty [] = .ok ⟨0, []⟩ :=
  getWorldBoundariesData_pagination cFetch [1, 0]
    ⟨250, List.range 100⟩
    ⟨250, (List.range 100).map (fun i => 100 + i)⟩
    ⟨250, (List.range 50).map (fun i => 200 + i)⟩
    rfl rfl (by simp) rfl (by simp) rfl (by simp)
    (Or.inr rfl)
    cFetchEmpty [] ⟨0, []⟩ rfl (by simp)

/-! ## Supporting lemmas on the stable descending sort -/

theorem insertByValueDesc_perm (a : PopulationRow) :
    ∀ l, List.Perm (insertByValueDesc a l) (a :: l)
  | [] => List.Perm.refl _
  | b :: l => by
      unfold insertByValueDesc
      split
      · exact List.Perm.refl _
      · exact ((insertByValueDesc_perm a l).cons b).trans (List.Perm.swap a b l)

theorem sortByValueDesc_perm : ∀ l, List.Perm (sortByValueDesc l) l
  | [] => List.Perm.refl _
  | a :: l =>
      (insertByValueDesc_perm a (sortByValueDesc l)).trans
        ((sortByValueDesc_perm l).cons a)

theorem sorted_insertByValueDesc (a : PopulationRow) :
    ∀ l, l.Pairwise (fun x y => y.value ≤ x.value) →
      (insertByValueDesc a l).Pairwise (fun x y => y.value ≤ x.value)
  | [], _ => by simp [insertByValueDesc]
  | b :: l, h => by
      unfold insertByValueDesc
      split
      · rename_i hba
        refine List.Pairwise.cons ?_ h
        intro y hy
        rcases List.mem_cons.mp hy with h1 | h1
        · subst h1; exact hba
        · exact le_trans (List.rel_of_pairwise_cons h h1) hba
      · rename_i hba
        have hab : a.value ≤ b.value := le_of_lt (lt_of_not_le hba)
        refine List.Pairwise.cons ?_ (sorted_insertByValueDesc a l h.of_cons)
        intro y hy
        have hy2 : y ∈ a :: l := (insertByValueDesc_perm a l).mem_iff.mp hy
        rcases List.mem_cons.mp hy2 with h1 | h1
        · subst h1; exact hab
        · exact List.rel_of_pairwise_cons h h1

theorem sorted_sortByValueDesc :
    ∀ l, (sortByValueDesc l).Pairwise (fun x y => y.value ≤ x.value)
  | [] => by simp [sortByValueDesc]
  | a :: l => sorted_insertByValueDesc a (sortByValueDesc l) (sorted_sortByValueDesc l)

theorem filter_value_insertByValueDesc (q : ℚ) (a : PopulationRow) :
    ∀ l, (insertByValueDesc a l).filter (fun r => r.value == q) =
      (a :: l).filter (fun r => r.value == q)
  | [] => rfl
  | b :: l => by
      unfold insertByValueDesc
      split
      · rfl
      · rename_i hba
        have hlt : a.value < b.value := lt_of_not_le hba
        simp only [List.filter_cons]
        rw [filter_value_insertByValueDesc q a l]
        simp only [List.filter_cons]
        by_cases haq : a.value = q <;> by_cases hbq : b.value = q
        · exfalso; rw [haq, hbq] at hlt; exact lt_irrefl q hlt
        · simp [haq, hbq]
        · simp [haq, hbq]
        · simp [haq, hbq]

theorem filter_value_sortByValueDesc (q : ℚ) :
    ∀ l, (sortByValueDesc l).filter (fun r => r.value == q) =
      l.filter (fun r => r.value == q)
  | [] => rfl
  | a :: l => by
      show (insertByValueDesc a (sortByValueDesc l)).filter (fun r => r.value == q) = _
      rw [filter_value_insertByValueDesc q a (sortByValueDesc l)]
      simp only [List.filter_cons]
      rw [filter_value_sortByValueDesc q l]

/-- C6 counterexample: when no row carries the requested year the snapshot
returns the generic default title, not the by-country title the claim
promises for every merged table and requested year. -/
theorem processDataByYear_default_title :
    processDataByYear [⟨"A", "AAA", 1999, 1⟩] "2020" = defaultChart ∧
    defaultChart.title ≠ "Population by Country (2020)" :=
  ⟨by decide, by decide⟩

/-- C6 amended: when at least one row carries the requested year, the
snapshot keeps exactly the rows of that year with nonblank country name,
sorts them descending by value stably (the sort is a permutation, is
pairwise descending, and preserves the original relative order within every
tie class), truncates to 50, and emits index-aligned country names and
values under the by-country title; when no row matches, the empty default
series with the generic title is returned instead. -/
theorem processDataByYear_snapshot (data : List PopulationRow) (year : String) (yn : ℚ)
    (hyn : jsParseInt year = JNum.fin yn)
    (hne : data.filter (fun d => ((d.year : ℚ) == yn)) ≠ []) :
    processDataByYear data year =
      ⟨((sortByValueDesc ((data.filter (fun d => ((d.year : ℚ) == yn))).filter
            (fun d => d.countryName != "" && jsTrim d.countryName != ""))).take 50).map
          (fun d => d.countryName),
        ((sortByValueDesc ((data.filter (fun d => ((d.year : ℚ) == yn))).filter
            (fun d => d.countryName != "" && jsTrim d.countryName != ""))).take 50).map
          (fun d => d.value),
        "Population by Country (" ++ year ++ ")"⟩ ∧
    List.Perm
      (sortByValueDesc ((data.filter (fun d => ((d.year : ℚ) == yn))).filter
        (fun d => d.countryName != "" && jsTrim d.countryName != "")))
      ((data.filter (fun d => ((d.year : ℚ) == yn))).filter
        (fun d => d.countryName != "" && jsTrim d.countryName != "")) ∧
    (sortByValueDesc ((data.filter (fun d => ((d.year : ℚ) == yn))).filter
        (fun d => d.countryName != "" && jsTrim d.countryName != ""))).Pairwise
      (fun x y => y.value ≤ x.value) ∧
    (∀ q : ℚ,
      (sortByValueDesc ((data.filter (fun d => ((d.year : ℚ) == yn))).filter
          (fun d => d.countryName != "" && jsTrim d.countryName != ""))).filter
        (fun r => r.value == q) =
      ((data.filter (fun d => ((d.year : ℚ) == yn))).filter
          (fun d => d.countryName != "" && jsTrim d.countryName != "")).filter
        (fun r => r.value == q)) ∧
    (processDataByYear data year).labels.length =
      (processDataByYear data year).values.length := by
  have hmain : processDataByYear data year =
      ⟨((sortByValueDesc ((data.filter (fun d => ((d.year : ℚ) == yn))).filter
            (fun d => d.countryName != "" && jsTrim d.countryName != ""))).take 50).map
          (fun d => d.countryName),
        ((sortByValueDesc ((data.filter (fun d => ((d.year : ℚ) == yn))).filter
            (fun d => d.countryName != "" && jsTrim d.countryName != ""))).take 50).map
          (fun d => d.value),
        "Population by Country (" ++ year ++ ")"⟩ := by
    unfold processDataByYear
    have hdlen : ¬(data.length = 0) := by
      intro h
      exact hne (by rw [List.length_eq_zero.mp h]; rfl)
    rw [if_neg hdlen, hyn]
    dsimp only
    rw [if_neg (fun h => hne (List.length_eq_zero.mp h))]
  refine ⟨hmain, sortByValueDesc_perm _, sorted_sortByValueDesc _,
    fun q => filter_value_sortByValueDesc q _, ?_⟩
  rw [hmain]
  simp
/-- Witness for C6 amended: five countries in 2020 with values 10, 50, 30,
20, 40 produce the descending values 50, 40, 30, 20, 10 with aligned
labels. -/
theorem processDataByYear_snapshot_witness :
    processDataByYear demoRows "2020" =
      ⟨["B", "E", "C", "D", "A"], [50, 40, 30, 20, 10],
        "Population by Country (2020)"⟩ := by
  rw [(processDataByYear_snapshot demoRows "2020" 2020 (by decide) (by decide)).1]
  decide

/-! ## Supporting lemma on slicing -/

theorem jsSlice_nonneg {γ : Type} (xs : List γ) (st e : Int) (hs : 0 ≤ st) (he : st ≤ e) :
    jsSlice xs st e = (xs.drop st.toNat).take (e - st).toNat := by
  unfold jsSlice
  dsimp only
  rw [if_neg (not_lt.mpr hs), if_neg (not_lt.mpr (le_trans hs he))]
  by_cases hsl : st ≤ (xs.length : Int)
  · rw [min_eq_left hsl]
    by_cases hel : e ≤ (xs.length : Int)
    · rw [min_eq_left hel]
    · rw [min_eq_right (le_of_not_le hel)]
      have hd : (xs.drop st.toNat).length = xs.length - st.toNat := List.length_drop _ _
      rw [List.take_of_length_le (by rw [hd]; omega),
        List.take_of_length_le (by rw [hd]; omega)]
  · push_neg at hsl
    rw [min_eq_right (le_of_lt hsl), min_eq_right (le_of_lt (lt_of_lt_of_le hsl he))]
    have h2 : xs.drop st.toNat = [] := List.drop_eq_nil_of_le (by omega)
    rw [h2]
    simp

/-- C7 counterexample: page -1 with page size 10 on a 20-item series is out
of range on the claim reading, yet the code returns the first ten items,
because the negative slice indices wrap around to the end of the array. -/
theorem paginateChartData_negative_page :
    paginateChartData demo20 (-1) 10 =
      ⟨((List.range 20).map (fun i => toString i)).take 10,
        ((List.range 20).map (fun i => (i : ℚ))).take 10⟩ ∧
    (paginateChartData demo20 (-1) 10).labels ≠ [] :=
  ⟨by decide, by decide⟩

/-- C7 amended: for every page at least 1 and nonnegative page size on an
index-aligned series, the slicer returns exactly the window of both arrays
from (page - 1) * pageSize of length pageSize, and any page whose start
index reaches past the series is empty; pages at most 0 instead follow the
negative-index wrapping of Array.prototype.slice. -/
theorem paginateChartData_slices (s : ChartPage) (page psize : Int)
    (hp : 1 ≤ page) (hps : 0 ≤ psize) (hlen : s.labels.length = s.values.length) :
    paginateChartData s page psize =
      ⟨(s.labels.drop ((page - 1) * psize).toNat).take psize.toNat,
        (s.values.drop ((page - 1) * psize).toNat).take psize.toNat⟩ ∧
    ((s.labels.length : Int) ≤ (page - 1) * psize →
      paginateChartData s page psize = ⟨[], []⟩) := by
  have hs0 : 0 ≤ (page - 1) * psize := mul_nonneg (by omega) hps
  have hse : (page - 1) * psize ≤ (page - 1) * psize + psize := by omega
  have htn : ((page - 1) * psize + psize - (page - 1) * psize).toNat = psize.toNat := by
    omega
  have hmain : paginateChartData s page psize =
      ⟨(s.labels.drop ((page - 1) * psize).toNat).take psize.toNat,
        (s.values.drop ((page - 1) * psize).toNat).take psize.toNat⟩ := by
    unfold paginateChartData
    by_cases hnil : s.labels.length = 0
    · rw [if_pos hnil]
      have hl : s.labels = [] := List.length_eq_zero.mp hnil
      have hv : s.values = [] := List.length_eq_zero.mp (hlen ▸ hnil)
      rw [hl, hv]
      simp
    · rw [if_neg hnil]
      dsimp only
      rw [jsSlice_nonneg _ _ _ hs0 hse, jsSlice_nonneg _ _ _ hs0 hse, htn]
  refine ⟨hmain, fun hout => ?_⟩
  rw [hmain]
  have h1 : s.labels.drop ((page - 1) * psize).toNat = [] :=
    List.drop_eq_nil_of_le (by omega)
  have h2 : s.values.drop ((page - 1) * psize).toNat = [] :=
    List.drop_eq_nil_of_le (by omega)
  rw [h1, h2]
  simp

/-- Witness for C7 amended: page 3 with page size 10 on the 20-item series
yields the empty series. -/
theorem paginateChartData_slices_witness :
    paginateChartData demo20 3 10 = ⟨[], []⟩ :=
  (paginateChartData_slices demo20 3 10 (by decide) (by decide) (by decide)).2
    (by decide)
